import Mathlib

/-!
Verification of the process-execution subsystem (`lib/core/exe.py`,
`lib/core/exception.py`) of the `virt` repository.

The Python module wraps `subprocess.Popen`:
* `ProcessHandler` (the spec's CommandInvoker) owns one spawned process, a
  bounded output queue fed by a background reader thread, and is tracked in
  the class-level FIFO queue `ProcessHandler.procs` (the spec's
  ProcessRegistry, capacity `MAX_PROCS = 1024`).
* `block_run` is the blocking wrapper; `run` the non-blocking one.
* the `atexit`-registered `_terminate` is the spec's ShutdownReaper.

The embedding below is sequentialised: the reader thread's effect is the
per-line `_enqueue_output` step applied to the list of lines the process
writes, a process is represented by its observable poll status, and the
environment (does Popen succeed, what does the command print, with which
exit code) is passed as explicit parameters.
-/

/-- `MAX_PROCS` from exe.py: maximum number of tracked processes. -/
def MAX_PROCS : Nat := 1024

/-- Result of `Popen.poll()`: `some code` once the process has terminated
with exit code `code`, `none` while it is still running. -/
abbrev PollResult := Option Int

/-- A command value as Python passes it around: either a literal string or
an argument vector (list of strings). -/
inductive CommandVal
  | str (s : String)
  | argv (args : List String)
deriving DecidableEq, Repr

/-- Python `str.split()` with no arguments: split on runs of whitespace and
discard empty fragments. -/
def splitws (s : String) : List String :=
  (s.split (fun c => c.isWhitespace)).filter (fun t => t ≠ "")

/-- A `ProcessHandler` instance (the spec's CommandInvoker):
`command` is `self._command`; `proc` is `self._proc` (`none` while no Popen
has succeeded, otherwise the process's poll status); `maxLine` is the
output queue's maxsize (`0` = unbounded, Python `Queue` semantics, matching
`max_line=None`); `buffer` the lines currently in `self._output_queue`,
oldest first. -/
structure Invoker where
  command : CommandVal
  proc : Option PollResult
  maxLine : Nat
  buffer : List String
deriving DecidableEq, Repr

/-- `e.proc.poll() is None`: the entry has a spawned, still-running process. -/
def is_running (e : Invoker) : Bool :=
  match e.proc with
  | some none => true
  | _ => false

/-- One iteration of `ProcessHandler._enqueue_output`: if the queue is full
(`0 < maxsize == qsize`, Python 2 `Queue.full`), `get_nowait()` removes the
oldest line, then `put_nowait(line)` appends the new one. -/
def enqueue_output_step (maxsize : Nat) (buffer : List String) (line : String) :
    List String :=
  if 0 < maxsize ∧ maxsize = buffer.length then buffer.tail ++ [line]
  else buffer ++ [line]

/-- `ProcessHandler._enqueue_output` applied to the whole sequence of lines
read from the process's stdout. -/
def enqueue_output (maxsize : Nat) (buffer : List String) (lines : List String) :
    List String :=
  lines.foldl (enqueue_output_step maxsize) buffer

/-- The `while 1` loop of `ProcessHandler.get_output`: `get_nowait()` until
`Empty`, accumulating into `ret_list`. -/
def get_output_loop (acc : List String) : List String → List String
  | [] => acc
  | l :: rest => get_output_loop (acc ++ [l]) rest

/-- `ProcessHandler.get_output`: drain the output queue and join the drained
lines with `''.join`. Returns the joined text and the queue contents
afterwards. -/
def get_output (buffer : List String) : String × List String :=
  (String.join (get_output_loop [] buffer), [])

/-- The exceptions this module raises (`lib/core/exception.py` and the
spawn-time `OSError` of `subprocess`):
`exeExhausted` is `ExeException('Reached maximum queue. ...')`;
`attributeError` is the `AttributeError` of calling `.poll()` on a `None`
process during compaction; `spawnFailed` is the platform's spawn error;
`exeExitcode` is `ExeExitcodeException(command, exitcode, output)`. -/
inductive ExeErr
  | exeExhausted
  | attributeError
  | spawnFailed
  | exeExitcode (command : CommandVal) (exitcode : Int) (output : String)
deriving DecidableEq, Repr

/-- The compaction loop of `ProcessHandler._append_proc_handler`: dequeue
every entry of the old queue in FIFO order; entries whose `proc.poll()` is
not `None` (terminated) are dropped, the others are put into `new_queue`.
An entry whose `proc` is still `None` makes `proc.poll()` raise
`AttributeError`; the exception propagates before the queue pointer is
updated, so the registry is then the not-yet-dequeued suffix of the old
queue. Returns the resulting registry and the raised error, if any. -/
def compact_loop (newQueue : List Invoker) :
    List Invoker → List Invoker × Option ExeErr
  | [] => (newQueue, none)
  | e :: rest =>
    match e.proc with
    | none => (rest, some ExeErr.attributeError)
    | some (some _) => compact_loop newQueue rest
    | some none => compact_loop (newQueue ++ [e]) rest

/-- `ProcessHandler._append_proc_handler`: if `ProcessHandler.procs` is not
full, append `self` and return. Otherwise compact; if the compacted queue is
still full raise `ExeException`, else append `self`. Returns the registry
afterwards and the raised error, if any. -/
def append_proc_handler (registry : List Invoker) (self : Invoker) :
    List Invoker × Option ExeErr :=
  if registry.length ≠ MAX_PROCS then (registry ++ [self], none)
  else
    match compact_loop [] registry with
    | (res, some err) => (res, some err)
    | (newQueue, none) =>
      if newQueue.length = MAX_PROCS then (newQueue, some ExeErr.exeExhausted)
      else (newQueue ++ [self], none)

/-- The module-level `run()` / `ProcessHandler.run()`: build a fresh handler
(`_proc = None`, empty queue), admit it into `ProcessHandler.procs` via
`_append_proc_handler`, and only then call `subprocess.Popen`. `spawnOk`
models whether Popen succeeds. The registry stores a reference to `self`,
so `self._proc = Popen(...)` is visible through the registry's final entry,
modelled by replacing that entry. Returns the registry afterwards, the
handler or the raised error, and whether Popen was invoked (i.e. whether an
OS-process creation was attempted). -/
def run_model (registry : List Invoker) (command : CommandVal) (maxLine : Nat)
    (spawnOk : Bool) :
    List Invoker × Except ExeErr Invoker × Bool :=
  let self : Invoker :=
    { command := command, proc := none, maxLine := maxLine, buffer := [] }
  match append_proc_handler registry self with
  | (reg, some err) => (reg, Except.error err, false)
  | (reg, none) =>
    if spawnOk then
      let spawned : Invoker := { self with proc := some none }
      (reg.dropLast ++ [spawned], Except.ok spawned, true)
    else
      (reg, Except.error ExeErr.spawnFailed, true)

/-- Observable behaviour of one spawned command: the exit code it
eventually terminates with, and the lines it writes to its (merged) output
stream. -/
structure ProcBehavior where
  exitCode : Int
  outputLines : List String
deriving DecidableEq, Repr

/-- Postcondition of `block_run`'s wait loop
(`while proc.poll() is None or proc._thread.is_alive(): time.sleep(0.1)`):
the process has exited, so `poll()` is the definite exit code, and the
reader thread has pushed every output line through `_enqueue_output` and
finished. -/
def wait_completion (inv : Invoker) (beh : ProcBehavior) : Invoker :=
  { inv with
      proc := some (some beh.exitCode),
      buffer := enqueue_output inv.maxLine inv.buffer beh.outputLines }

/-- `block_run` from exe.py. `py27` is `sys.version_info >= (2, 7)`.
When `py27` holds, the command runs through `subprocess.check_output`,
which spawns directly and never touches `ProcessHandler.procs`; a
`CalledProcessError` is re-raised as
`ExeExitcodeException(err.cmd, err.returncode, err.output)`.
Otherwise the command runs through `run()` (with `max_line=None`, an
unbounded queue), `block_run` waits until both the poll is definite and the
reader thread is finished, drains the output once with `get_output()`, and
raises `ExeExitcodeException(command, proc.poll(), output)` when the exit
code is non-zero. In both branches a string command is first split on
whitespace unless shell mode is requested. Returns the registry afterwards
and the output or the raised error. -/
def block_run (py27 shell : Bool) (command : String) (spawnOk : Bool)
    (beh : ProcBehavior) (registry : List Invoker) :
    List Invoker × Except ExeErr String :=
  let cmd : CommandVal :=
    if shell then CommandVal.str command else CommandVal.argv (splitws command)
  if py27 then
    if spawnOk then
      if beh.exitCode = 0 then
        (registry, Except.ok (String.join beh.outputLines))
      else
        (registry,
          Except.error
            (ExeErr.exeExitcode cmd beh.exitCode (String.join beh.outputLines)))
    else (registry, Except.error ExeErr.spawnFailed)
  else
    match run_model registry cmd 0 spawnOk with
    | (reg, Except.error err, _) => (reg, Except.error err)
    | (reg, Except.ok inv, _) =>
      let invw := wait_completion inv beh
      let drained := get_output invw.buffer
      let invd : Invoker := { invw with buffer := drained.2 }
      if beh.exitCode ≠ 0 then
        (reg.dropLast ++ [invd],
          Except.error (ExeErr.exeExitcode cmd beh.exitCode drained.1))
      else
        (reg.dropLast ++ [invd], Except.ok drained.1)

/-- The BlockingRunner as the specification (section 4.4) words it: spawn
via the CommandInvoker path with output capture (step 1, including the
invoker path's whitespace split of non-shell string commands); propagate an
admission or spawn failure without waiting (step 5); otherwise wait until
the poll is definite and the reader has observed end of stream (step 2);
collect the captured output with one `get_output()` call (step 3); fail
with the exit-code error carrying command, exit code and captured output
when the exit code is non-zero (step 4), and return the output otherwise. -/
def block_run_spec (shell : Bool) (command : String) (spawnOk : Bool)
    (beh : ProcBehavior) (registry : List Invoker) :
    List Invoker × Except ExeErr String :=
  let cmd : CommandVal :=
    if shell then CommandVal.str command else CommandVal.argv (splitws command)
  match run_model registry cmd 0 spawnOk with
  | (reg, Except.error err, _) => (reg, Except.error err)
  | (reg, Except.ok inv, _) =>
    let invw := wait_completion inv beh
    let drained := get_output invw.buffer
    let invd : Invoker := { invw with buffer := drained.2 }
    if beh.exitCode ≠ 0 then
      (reg.dropLast ++ [invd],
        Except.error (ExeErr.exeExitcode cmd beh.exitCode drained.1))
    else
      (reg.dropLast ++ [invd], Except.ok drained.1)

/-- The `atexit` hook `_terminate` (the spec's ShutdownReaper): drain
`ProcessHandler.procs`; for every handler with a spawned, still-running
process (`proc is not None and proc.poll() is None`) call `proc.kill()`
and then `proc.poll()`. Each entry carries a flag modelling whether its
`kill()` call raises (process already gone, insufficient privilege); the
loop has no try/except, so such an exception propagates at once and the
not-yet-dequeued entries stay unprocessed. Returns the handlers that were
killed-and-polled, in order, the propagated error if any, and the entries
left unprocessed. -/
def terminate_loop :
    List (Invoker × Bool) → List Invoker × Option Unit × List (Invoker × Bool)
  | [] => ([], none, [])
  | (e, killRaises) :: rest =>
    match e.proc with
    | some none =>
      if killRaises then ([], some (), rest)
      else
        let r := terminate_loop rest
        (e :: r.1, r.2.1, r.2.2)
    | _ => terminate_loop rest

section HelperLemmas

/-- The drain loop returns everything it saw, accumulator first, preserving
order. -/
theorem get_output_loop_eq (acc buffer : List String) :
    get_output_loop acc buffer = acc ++ buffer := by
  induction buffer generalizing acc with
  | nil => simp [get_output_loop]
  | cons l rest ih => simp [get_output_loop, ih]

/-- One enqueue step on a buffer strictly below capacity (or with an
unbounded queue) appends. -/
theorem enqueue_output_step_not_full (maxsize : Nat) (buffer : List String)
    (line : String) (h : ¬ (0 < maxsize ∧ maxsize = buffer.length)) :
    enqueue_output_step maxsize buffer line = buffer ++ [line] := by
  simp [enqueue_output_step, h]

/-- One enqueue step on a full bounded buffer evicts the oldest line first. -/
theorem enqueue_output_step_full (maxsize : Nat) (buffer : List String)
    (line : String) (h0 : 0 < maxsize) (h : maxsize = buffer.length) :
    enqueue_output_step maxsize buffer line = buffer.tail ++ [line] := by
  unfold enqueue_output_step
  rw [if_pos ⟨h0, h⟩]

/-- With an unbounded queue (maxsize 0, Python `Queue()`), enqueueing just
appends the lines. -/
theorem enqueue_output_unbounded (buffer lines : List String) :
    enqueue_output 0 buffer lines = buffer ++ lines := by
  induction lines generalizing buffer with
  | nil => simp [enqueue_output]
  | cons l rest ih =>
    have h : enqueue_output_step 0 buffer l = buffer ++ [l] := by
      simp [enqueue_output_step]
    simpa [enqueue_output, enqueue_output_step, h] using ih (buffer ++ [l])

/-- Core drop-oldest characterisation: starting from a buffer within
capacity, enqueueing a sequence of lines leaves exactly the suffix of
`buffer ++ lines` of length at most the capacity. -/
theorem enqueue_output_eq_drop (C : Nat) (hC : 0 < C) :
    ∀ (lines buffer : List String), buffer.length ≤ C →
      enqueue_output C buffer lines =
        (buffer ++ lines).drop (buffer.length + lines.length - C) := by
  intro lines
  induction lines with
  | nil =>
    intro buffer hb
    simp only [enqueue_output, List.foldl_nil, List.append_nil,
      List.length_nil, Nat.add_zero]
    rw [Nat.sub_eq_zero_of_le hb, List.drop_zero]
  | cons l rest ih =>
    intro buffer hb
    by_cases hfull : C = buffer.length
    · -- full buffer: evict the oldest line, then continue
      have hstep : enqueue_output_step C buffer l = buffer.tail ++ [l] :=
        enqueue_output_step_full C buffer l hC hfull
      have hbne : buffer ≠ [] := by
        intro hnil
        rw [hnil] at hfull
        simp at hfull
        omega
      obtain ⟨b, bs, rfl⟩ := List.exists_cons_of_ne_nil hbne
      have hC' : C = bs.length + 1 := by simpa using hfull
      have hlen : (bs ++ [l]).length = C := by simp [hC']
      have ihx := ih (bs ++ [l]) (le_of_eq hlen)
      have hstart : enqueue_output C (b :: bs) (l :: rest) =
          enqueue_output C (bs ++ [l]) rest := by
        simp only [enqueue_output, List.foldl_cons, hstep, List.tail_cons]
      have hd : (bs ++ [l]).length + rest.length - C = rest.length := by
        rw [hlen]; omega
      have hd2 : (b :: bs).length + (l :: rest).length - C =
          rest.length + 1 := by
        simp only [List.length_cons]
        omega
      rw [hstart, ihx, hd, hd2]
      simp [List.append_assoc]
    · -- room left: append and continue
      have hstep : enqueue_output_step C buffer l = buffer ++ [l] :=
        enqueue_output_step_not_full C buffer l (fun hcon => hfull hcon.2)
      have hlt : buffer.length < C := lt_of_le_of_ne hb (fun h => hfull h.symm)
      have hlen : (buffer ++ [l]).length ≤ C := by
        simp only [List.length_append, List.length_cons, List.length_nil]
        omega
      have ihx := ih (buffer ++ [l]) hlen
      have hstart : enqueue_output C buffer (l :: rest) =
          enqueue_output C (buffer ++ [l]) rest := by
        simp only [enqueue_output, List.foldl_cons, hstep]
      have harith : (buffer ++ [l]).length + rest.length - C =
          buffer.length + (l :: rest).length - C := by
        simp only [List.length_append, List.length_cons, List.length_nil]
        omega
      rw [hstart, ihx, harith]
      simp [List.append_assoc]

end HelperLemmas

/-- C2: an OutputBuffer of capacity `C ≥ 1` fed `N > C` lines holds exactly
the last `C` lines in their original relative order; every intermediate
buffer stays within capacity; and an enqueue on a full buffer removes
exactly the oldest line before appending the new one. -/
theorem C2_outputBuffer_dropOldest (C : Nat) (hC : 1 ≤ C)
    (lines : List String) (hN : C < lines.length) :
    enqueue_output C [] lines = lines.drop (lines.length - C) ∧
    (∀ p q : List String, lines = p ++ q →
      (enqueue_output C [] p).length ≤ C) ∧
    (∀ (buf : List String) (l : String), buf.length = C →
      enqueue_output_step C buf l = buf.tail ++ [l]) := by
  refine ⟨?_, ?_, ?_⟩
  · have h := enqueue_output_eq_drop C hC lines [] (by simp)
    simpa using h
  · intro p q hpq
    have h := enqueue_output_eq_drop C hC p [] (by simp)
    simp at h
    rw [h]
    simp
    omega
  · intro buf l hbuf
    exact enqueue_output_step_full C buf l hC hbuf.symm

/-- C2 witness at capacity 2 with three lines. -/
theorem C2_outputBuffer_dropOldest_witness :
    enqueue_output 2 [] ["a", "b", "c"] = ["a", "b", "c"].drop (3 - 2) ∧
    (∀ p q : List String, ["a", "b", "c"] = p ++ q →
      (enqueue_output 2 [] p).length ≤ 2) ∧
    (∀ (buf : List String) (l : String), buf.length = 2 →
      enqueue_output_step 2 buf l = buf.tail ++ [l]) :=
  C2_outputBuffer_dropOldest 2 (by decide) ["a", "b", "c"] (by decide)

/-- C5: `get_output()` removes and returns every buffered line as one
concatenated string in enqueue order, leaves the buffer empty, and an
immediate second call (nothing enqueued in between) returns the empty
string. -/
theorem C5_getOutput_drains (buffer : List String) :
    (get_output buffer).1 = String.join buffer ∧
    (get_output buffer).2 = [] ∧
    (get_output (get_output buffer).2).1 = "" := by
  refine ⟨?_, rfl, rfl⟩
  simp [get_output, get_output_loop_eq]

/-- Compaction on a queue whose entries all have spawned processes keeps
exactly the still-running entries, in their original relative order, after
the accumulated prefix. -/
theorem compact_loop_eq_filter (l : List Invoker)
    (hp : ∀ e ∈ l, e.proc ≠ none) :
    ∀ acc, compact_loop acc l = (acc ++ l.filter is_running, none) := by
  induction l with
  | nil => intro acc; simp [compact_loop]
  | cons e rest ih =>
    intro acc
    have hrest : ∀ x ∈ rest, x.proc ≠ none :=
      fun x hx => hp x (List.mem_cons_of_mem e hx)
    cases hproc : e.proc with
    | none => exact absurd hproc (hp e (List.mem_cons_self e rest))
    | some st =>
      cases st with
      | some code =>
        have hrun : is_running e = false := by simp [is_running, hproc]
        simp only [compact_loop, hproc, List.filter_cons, hrun]
        exact ih hrest acc
      | none =>
        have hrun : is_running e = true := by simp [is_running, hproc]
        simp only [compact_loop, hproc, List.filter_cons, hrun]
        rw [ih hrest (acc ++ [e])]
        simp

/-- Admission into a full registry whose entries all have spawned processes:
compaction rebuilds the registry as the still-running survivors; if they
still fill it the `ExeException` is raised, otherwise the new handler is
appended. -/
theorem append_proc_handler_full (registry : List Invoker) (self : Invoker)
    (hfull : registry.length = MAX_PROCS)
    (hp : ∀ e ∈ registry, e.proc ≠ none) :
    append_proc_handler registry self =
      (if (registry.filter is_running).length = MAX_PROCS then
        (registry.filter is_running, some ExeErr.exeExhausted)
      else (registry.filter is_running ++ [self], none)) := by
  unfold append_proc_handler
  rw [if_neg (not_not.mpr hfull), compact_loop_eq_filter registry hp []]
  simp

/-- C3: when the registry is at its capacity of `MAX_PROCS = 1024` tracked
processes and every one of them is still running, compaction reclaims
nothing, admission fails with the registry-exhausted error, and `run()`
raises before any OS process is created (the Popen-invoked flag is
`false`). -/
theorem C3_registryExhausted_noSpawn (registry : List Invoker)
    (command : CommandVal) (maxLine : Nat) (spawnOk : Bool)
    (hfull : registry.length = MAX_PROCS)
    (hrun : ∀ e ∈ registry, e.proc = some none) :
    run_model registry command maxLine spawnOk =
      (registry, Except.error ExeErr.exeExhausted, false) := by
  have hp : ∀ e ∈ registry, e.proc ≠ none := by
    intro e he
    rw [hrun e he]
    simp
  have hfilter : registry.filter is_running = registry :=
    List.filter_eq_self.mpr (fun e he => by simp [is_running, hrun e he])
  have happend : append_proc_handler registry
      { command := command, proc := none, maxLine := maxLine, buffer := [] } =
      (registry, some ExeErr.exeExhausted) := by
    rw [append_proc_handler_full registry _ hfull hp, hfilter, if_pos hfull]
  simp [run_model, happend]

/-- A tracked invoker whose process is still running. -/
def runningInv : Invoker :=
  { command := CommandVal.str "sleep 100", proc := some none, maxLine := 0,
    buffer := [] }

/-- A tracked invoker whose process has terminated with exit code 0. -/
def exitedInv : Invoker :=
  { command := CommandVal.str "true", proc := some (some 0), maxLine := 0,
    buffer := [] }

/-- C3 witness: a registry of 1024 still-running processes refuses the next
admission and spawns nothing. -/
theorem C3_registryExhausted_noSpawn_witness :
    run_model (List.replicate 1024 runningInv) (CommandVal.str "x") 0 true =
      (List.replicate 1024 runningInv, Except.error ExeErr.exeExhausted,
        false) :=
  C3_registryExhausted_noSpawn (List.replicate 1024 runningInv)
    (CommandVal.str "x") 0 true
    (by simp only [List.length_replicate, MAX_PROCS])
    (by
      intro e he
      rw [List.eq_of_mem_replicate he]
      rfl)

/-- C4: admission into a full registry whose entries all have spawned
processes, at least one of which has terminated, walks the entries in FIFO
order, discards exactly the terminated ones, rebuilds the registry with the
still-running survivors in their original relative order, and appends the
new invoker; the resulting size is `MAX_PROCS` minus the number of
terminated entries plus one. -/
theorem C4_compaction_rebuild (registry : List Invoker) (self : Invoker)
    (hfull : registry.length = MAX_PROCS)
    (hp : ∀ e ∈ registry, e.proc ≠ none)
    (hterm : ∃ e ∈ registry, is_running e = false) :
    append_proc_handler registry self =
      (registry.filter is_running ++ [self], none) ∧
    (registry.filter is_running ++ [self]).length =
      MAX_PROCS - (registry.filter (fun e => ! is_running e)).length + 1 := by
  have hsplit := List.length_eq_length_filter_add (l := registry) is_running
  have hpos : 0 < (registry.filter (fun e => ! is_running e)).length := by
    obtain ⟨e, he, hre⟩ := hterm
    have : e ∈ registry.filter (fun e => ! is_running e) :=
      List.mem_filter.mpr ⟨he, by simp [hre]⟩
    exact List.length_pos.mpr (List.ne_nil_of_mem this)
  have hlt : (registry.filter is_running).length ≠ MAX_PROCS := by
    simp only [Function.comp] at hsplit
    omega
  constructor
  · rw [append_proc_handler_full registry self hfull hp, if_neg hlt]
  · simp only [List.length_append, List.length_cons, List.length_nil]
    simp only [Function.comp] at hsplit
    omega

/-- C4 witness: 1014 running and 10 exited processes fill the registry; the
next admission compacts away the 10 exited entries and succeeds, leaving
1015 entries. -/
theorem C4_compaction_rebuild_witness :
    append_proc_handler
        (List.replicate 1014 runningInv ++ List.replicate 10 exitedInv)
        runningInv =
      ((List.replicate 1014 runningInv ++
          List.replicate 10 exitedInv).filter is_running ++ [runningInv],
        none) ∧
    ((List.replicate 1014 runningInv ++
        List.replicate 10 exitedInv).filter is_running ++
      [runningInv]).length =
      MAX_PROCS -
        ((List.replicate 1014 runningInv ++
            List.replicate 10 exitedInv).filter
          (fun e => ! is_running e)).length + 1 :=
  C4_compaction_rebuild _ runningInv
    (by simp only [List.length_append, List.length_replicate, MAX_PROCS])
    (by
      intro e he
      rcases List.mem_append.mp he with h | h
      · rw [List.eq_of_mem_replicate h]
        simp [runningInv]
      · rw [List.eq_of_mem_replicate h]
        simp [exitedInv])
    ⟨exitedInv,
      by
        rw [List.mem_append, List.mem_replicate, List.mem_replicate]
        right
        exact ⟨by norm_num, rfl⟩,
      rfl⟩

/-- An invoker admitted into the registry whose spawn then failed: its
process handle is still `None`. -/
def unspawnedInv : Invoker :=
  { command := CommandVal.argv ["nosuch"], proc := none, maxLine := 0,
    buffer := [] }

/-- C7 counterexample: `run()` admits the handler before calling Popen, so
when the spawn fails (missing executable) against an empty registry, the
admitted entry — with no process handle — is still tracked afterwards,
contradicting that no entry for the invoker remains. -/
theorem C7_counterexample_spawnFailureLeavesEntry :
    run_model [] (CommandVal.argv ["nosuch"]) 0 false =
      ([unspawnedInv], Except.error ExeErr.spawnFailed, true) := by
  rfl

/-- C7 amended: entries are added by admission, which precedes spawning:
whenever the registry is below capacity and the spawn fails, the spawn is
attempted after registration and the admitted invoker remains tracked with
a `None` process handle. -/
theorem C7_amended_admissionPrecedesSpawn (registry : List Invoker)
    (command : CommandVal) (maxLine : Nat)
    (h : registry.length ≠ MAX_PROCS) :
    run_model registry command maxLine false =
      (registry ++
          [{ command := command, proc := none, maxLine := maxLine,
             buffer := [] }],
        Except.error ExeErr.spawnFailed, true) := by
  simp [run_model, append_proc_handler, h]

/-- C7 amended witness: one failing spawn against an empty registry. -/
theorem C7_amended_admissionPrecedesSpawn_witness :
    ([] : List Invoker).length ≠ MAX_PROCS ∧
    run_model [] (CommandVal.argv ["true"]) 5 false =
      ([{ command := CommandVal.argv ["true"], proc := none, maxLine := 5,
          buffer := [] }],
        Except.error ExeErr.spawnFailed, true) :=
  ⟨by decide,
    C7_amended_admissionPrecedesSpawn [] (CommandVal.argv ["true"]) 5
      (by decide)⟩

/-- C8: a shutdown pass in which no kill attempt itself fails
kills-and-polls exactly the entries with a spawned, still-running process,
in FIFO order, leaves every already-exited entry untouched, raises no
error, and leaves no entry unprocessed. -/
theorem C8_reaper_killsExactlyRunning (entries : List (Invoker × Bool))
    (hok : ∀ p ∈ entries, p.2 = false) :
    terminate_loop entries =
      ((entries.map Prod.fst).filter is_running, none, []) := by
  induction entries with
  | nil => rfl
  | cons p rest ih =>
    obtain ⟨e, b⟩ := p
    have hb : b = false := hok (e, b) (List.mem_cons_self _ _)
    subst hb
    have hrest : ∀ q ∈ rest, q.2 = false :=
      fun q hq => hok q (List.mem_cons_of_mem _ hq)
    cases hproc : e.proc with
    | none =>
      have hrun : is_running e = false := by simp [is_running, hproc]
      simp [terminate_loop, hproc, List.filter_cons, hrun, ih hrest]
    | some st =>
      cases st with
      | none =>
        have hrun : is_running e = true := by simp [is_running, hproc]
        simp [terminate_loop, hproc, List.filter_cons, hrun, ih hrest]
      | some code =>
        have hrun : is_running e = false := by simp [is_running, hproc]
        simp [terminate_loop, hproc, List.filter_cons, hrun, ih hrest]

/-- C8 witness: one running, one exited and one never-spawned entry; only
the running one is killed. -/
theorem C8_reaper_killsExactlyRunning_witness :
    terminate_loop
        [(runningInv, false), (exitedInv, false), (unspawnedInv, false)] =
      (([(runningInv, false), (exitedInv, false),
          (unspawnedInv, false)].map Prod.fst).filter is_running,
        none, []) :=
  C8_reaper_killsExactlyRunning
    [(runningInv, false), (exitedInv, false), (unspawnedInv, false)]
    (by decide)

/-- C9 counterexample: `_terminate` has no try/except around `kill()`; with
two still-running entries where the first kill attempt raises, the
exception propagates out of the hook, nothing is logged-and-continued, and
the second entry is left unprocessed. -/
theorem C9_counterexample_killFailurePropagates :
    terminate_loop [(runningInv, true), (runningInv, false)] =
      ([], some (), [(runningInv, false)]) := by
  rfl

/-- C9 amended: a failing kill attempt is not caught: the exception
propagates out of `_terminate` at once and the remaining registry entries
are left unprocessed. -/
theorem C9_amended_killFailureAbandonsRest (e : Invoker)
    (rest : List (Invoker × Bool)) (h : e.proc = some none) :
    terminate_loop ((e, true) :: rest) = ([], some (), rest) := by
  simp [terminate_loop, h]

/-- C9 amended witness: a failing kill on the first running entry abandons
the exited entry behind it. -/
theorem C9_amended_killFailureAbandonsRest_witness :
    runningInv.proc = some none ∧
    terminate_loop [(runningInv, true), (exitedInv, false)] =
      ([], some (), [(exitedInv, false)]) :=
  ⟨rfl, C9_amended_killFailureAbandonsRest runningInv [(exitedInv, false)] rfl⟩

/-- C10: an entry admitted but never spawned (`proc is None`, reachable
because admission precedes spawning) is skipped by the reaper's
`proc is not None` guard: no kill is attempted, nothing is raised, and the
pass continues exactly as it would on the remaining entries. -/
theorem C10_reaper_skipsUnspawned (e : Invoker) (b : Bool)
    (rest : List (Invoker × Bool)) (h : e.proc = none) :
    terminate_loop ((e, b) :: rest) = terminate_loop rest := by
  simp [terminate_loop, h]

/-- C10 witness: a never-spawned entry ahead of a running one is skipped. -/
theorem C10_reaper_skipsUnspawned_witness :
    unspawnedInv.proc = none ∧
    terminate_loop [(unspawnedInv, true), (runningInv, false)] =
      terminate_loop [(runningInv, false)] :=
  ⟨rfl, C10_reaper_skipsUnspawned unspawnedInv true [(runningInv, false)] rfl⟩

/-- A successful spawn against a registry below capacity appends the
handler, then the Popen result becomes visible through the final entry. -/
theorem run_model_success (registry : List Invoker) (cmd : CommandVal)
    (maxLine : Nat) (hreg : registry.length ≠ MAX_PROCS) :
    run_model registry cmd maxLine true =
      (registry ++
          [{ command := cmd, proc := some none, maxLine := maxLine,
             buffer := [] }],
        Except.ok
          { command := cmd, proc := some none, maxLine := maxLine,
            buffer := [] },
        true) := by
  simp [run_model, append_proc_handler, hreg, List.dropLast_concat]

/-- C6: `block_run` on a command that exits non-zero fails with the
exit-code error carrying the (whitespace-split unless shell mode)
command, the numeric exit code, and the output the command wrote before
exiting; on exit code 0 it returns the captured output string. Holds on
both interpreter branches, for a spawnable command and a registry that can
admit it. -/
theorem C6_blockRun_exitCodeError (py27 shell : Bool) (command : String)
    (beh : ProcBehavior) (registry : List Invoker)
    (hreg : registry.length ≠ MAX_PROCS) :
    (block_run py27 shell command true beh registry).2 =
      (if beh.exitCode = 0 then Except.ok (String.join beh.outputLines)
       else
        Except.error
          (ExeErr.exeExitcode
            (if shell then CommandVal.str command
             else CommandVal.argv (splitws command))
            beh.exitCode (String.join beh.outputLines))) := by
  cases py27 with
  | true =>
    by_cases h0 : beh.exitCode = 0 <;> simp [block_run, h0]
  | false =>
    have hrm := run_model_success registry
      (if shell then CommandVal.str command
       else CommandVal.argv (splitws command)) 0 hreg
    by_cases h0 : beh.exitCode = 0 <;>
      simp [block_run, hrm, wait_completion, get_output, get_output_loop_eq,
        enqueue_output_unbounded, h0]

/-- C6 witness: a command exiting 3 after printing one line, run through the
legacy invoker branch against an empty registry. -/
theorem C6_blockRun_exitCodeError_witness :
    ([] : List Invoker).length ≠ MAX_PROCS ∧
    (block_run false false "false" true ⟨3, ["boom"]⟩ []).2 =
      (if (3 : Int) = 0 then Except.ok (String.join ["boom"])
       else
        Except.error
          (ExeErr.exeExitcode
            (if false then CommandVal.str "false"
             else CommandVal.argv (splitws "false"))
            3 (String.join ["boom"]))) :=
  ⟨by decide,
    C6_blockRun_exitCodeError false false "false" ⟨3, ["boom"]⟩ [] (by decide)⟩

/-- C1 counterexample: on an interpreter with `sys.version_info >= (2, 7)`,
`block_run` goes through `subprocess.check_output`: the spawned process is
never registered in `ProcessHandler.procs` — the registry stays empty —
whereas the CommandInvoker path of the specification's BlockingRunner
registers one entry. -/
theorem C1_counterexample_py27_bypassesRegistry :
    (block_run true false "echo hi" true ⟨0, ["hi"]⟩ []).1 = [] ∧
    (block_run_spec false "echo hi" true ⟨0, ["hi"]⟩ []).1.length = 1 := by
  constructor <;> rfl

/-- C1 amended: only on interpreters older than 2.7 does `block_run` spawn
through the non-blocking CommandInvoker path; there it is exactly the
specification's BlockingRunner — run() (registering the handler and
capturing output), wait until the poll is definite and the reader has
finished, one get_output(), and the exit-code check. On 2.7+ it delegates
to `subprocess.check_output`, and the registry is left untouched. -/
theorem C1_amended_legacyBranchIsInvokerPath (shell : Bool) (command : String)
    (spawnOk : Bool) (beh : ProcBehavior) (registry : List Invoker) :
    block_run false shell command spawnOk beh registry =
      block_run_spec shell command spawnOk beh registry ∧
    (block_run true shell command spawnOk beh registry).1 = registry := by
  constructor
  · rfl
  · simp only [block_run]
    split_ifs <;> rfl
